import Mathlib

/-!
Verification of the IMP toolchain (a small imperative language): a shallow
embedding of the bytecode virtual machine (`src/interp.cpp`) and of the
recursive-descent parser (`src/lexer.h`, parser part), together with theorems
settling the specification's claims about them.

Machine integers are modelled as `Int` with explicit wrapping modulo `2^64`
where the C++ performs 64-bit signed arithmetic; the byte-addressed bytecode
buffer is modelled as a partial map from offsets to typed cells, one offset per
decoded item (operand widths do not affect any property proved here).
-/

namespace Imp

/-! ## Values and bytecode (src/interp.cpp, with Value/Program from interp.h and
program.h modelled from the spec where the headers are not in the visible source) -/

/-- A runtime `Value`: a tagged union with exactly one live variant —
`Integer` (signed 64-bit), `Address` (offset into the program), or
`NativeReference` (an opaque handle to a bound native callable). -/
inductive Value where
  | int (v : Int)
  | addr (a : Nat)
  | proto (f : Nat)
  deriving DecidableEq

/-- The opcodes of the bytecode language, as matched in `Interp::Run`. -/
inductive Opcode where
  | PUSH_FUNC | PUSH_PROTO | PUSH_INT | PEEK | POP | CALL
  | ADD | SUB | MUL | DIV | MOD
  | DEQ | NEQ | SM | SMEQ | GR | GREQ
  | RET | JUMP_FALSE | JUMP | STOP
  deriving DecidableEq

/-- One decoded item of the bytecode buffer: an opcode, a machine-word
immediate (`size_t` addresses and `unsigned` counts), a 64-bit signed integer
literal, or a native-callable reference. -/
inductive Cell where
  | op (o : Opcode)
  | word (n : Nat)
  | i64 (v : Int)
  | fn (f : Nat)
  deriving DecidableEq

/-- Modelled from the spec: the `Program` bytecode container is an immutable,
densely packed sequence of opcodes and fixed-size immediates addressed by
offset (`program.h` is not in the visible source); here each decoded item
occupies one offset, and `Read` at an offset yields the cell there and
advances past it. -/
def Program : Type := Nat → Option Cell

/-- The interpreter state visible to one step: the program counter and the
operand stack (head of the list is the top of the stack). -/
structure Interp where
  pc : Nat
  stack : List Value
  deriving DecidableEq

/-- The outcome of executing one instruction: a next state, a terminated
state (`STOP`), transfer of control to a native callable, a fatal runtime
error carrying its message, or a decoding/stack fault (undefined behaviour in
the C++ source: out-of-bounds or mistyped operand read, pop of an empty
stack, or a stack resize below zero). -/
inductive StepRes where
  | ok (s : Interp)
  | stopped (s : Interp)
  | native (f : Nat) (s : Interp)
  | error (msg : String)
  | fault
  deriving DecidableEq

/-- Reinterpretation of a mathematical integer as a 64-bit two's-complement
signed value: reduce modulo `2^64 = 18446744073709551616` into
`[-2^63, 2^63)`. -/
def wrap64 (z : Int) : Int :=
  (z + 9223372036854775808) % 18446744073709551616 - 9223372036854775808

/-- The signed-64-bit range `[-2^63, 2^63)` of C++ `int64_t`. -/
def inRange (z : Int) : Prop :=
  -9223372036854775808 ≤ z ∧ z < 9223372036854775808

instance (z : Int) : Decidable (inRange z) := by
  unfold inRange; infer_instance

/-- The overflow test of the `ADD`/`SUB` cases of `Interp::Run`, verbatim:
`(rhs < 0 && lhs < 0 && result > 0) || (rhs > 0 && lhs > 0 && result < 0)`.
In the source its positive branch only constructs a `RuntimeError` value
without throwing it, so it has no effect on execution. -/
def overflowTest (rhs lhs result : Int) : Bool :=
  (rhs < 0 && lhs < 0 && result > 0) || (rhs > 0 && lhs > 0 && result < 0)

/-- Modelled from the spec: `Value`'s truthiness (`operator bool`, in the
non-visible `interp.h`) is specified for `Integer` only — `Integer(0)` is
falsy; behaviour on other kinds is left unspecified by the design (§9) and
modelled as truthy, which no theorem below relies on. -/
def isFalsy : Value → Bool
  | .int i => i == 0
  | _ => false

/-- The shared shape of the eleven binary-operator cases of `Interp::Run`:
`auto rhs = PopInt(); auto lhs = PopInt(); ...; Push(result)`. `PopInt`
(modelled from the spec, `interp.h` not visible) pops the top of the stack and
requires it to be an `Integer`; any other kind is a fatal type error, and a
pop from an empty stack is a fault. -/
def binCase (pc : Nat) (stack : List Value) (f : Int → Int → Int) : StepRes :=
  match stack with
  | .int rhs :: .int lhs :: rest => .ok ⟨pc, .int (f lhs rhs) :: rest⟩
  | .int _ :: [] => .fault
  | .int _ :: _ :: _ => .error "operand type mismatch"
  | [] => .fault
  | _ :: _ => .error "operand type mismatch"

/-- One iteration of the `Interp::Run` switch, after the opcode has been
fetched: `pc` already points past the opcode, exactly as in the C++ where
`prog_.Read<Opcode>(pc_)` advanced `pc_` before the switch runs.
Each case mirrors the corresponding case of the source switch:
* `PUSH_FUNC`/`PUSH_PROTO`/`PUSH_INT` read one immediate and push it with the
  kind the `Push` overload gives it (`Address`, `NativeReference`, `Integer`);
* `PEEK` reads an index and pushes a copy of the value that many slots below
  the top;
* `CALL` pops the callee and branches on its kind;
* the arithmetic cases compute with 64-bit wrapping (`ADD` via the explicit
  `uint64_t` casts of the source; `SUB`/`MUL`/`DIV`'s overflow is undefined in
  the C++ and modelled as wrapping; the `ADD`/`SUB` overflow test of the
  source constructs an unthrown `RuntimeError` and is therefore effect-free);
* `RET` reads `depth`/`nargs`, pops the return value, discards `depth`
  values, pops the return address (`PopAddr`, modelled from the spec: requires
  an `Address`), discards `nargs` values, pushes the return value back;
* `JUMP_FALSE` pops the condition, reads the target, and jumps on falsy;
* `JUMP` jumps; `STOP` terminates. -/
def exec (o : Opcode) (prog : Program) (pc : Nat) (stack : List Value) : StepRes :=
  match o with
  | .PUSH_FUNC =>
    match prog pc with
    | some (.word a) => .ok ⟨pc + 1, .addr a :: stack⟩
    | _ => .fault
  | .PUSH_PROTO =>
    match prog pc with
    | some (.fn f) => .ok ⟨pc + 1, .proto f :: stack⟩
    | _ => .fault
  | .PUSH_INT =>
    match prog pc with
    | some (.i64 v) => .ok ⟨pc + 1, .int v :: stack⟩
    | _ => .fault
  | .PEEK =>
    match prog pc with
    | some (.word idx) =>
      match stack[idx]? with
      | some v => .ok ⟨pc + 1, v :: stack⟩
      | none => .fault
    | _ => .fault
  | .POP =>
    match stack with
    | _ :: rest => .ok ⟨pc, rest⟩
    | [] => .fault
  | .CALL =>
    match stack with
    | callee :: rest =>
      match callee with
      | .proto f => .native f ⟨pc, rest⟩
      | .addr a => .ok ⟨a, .addr pc :: rest⟩
      | .int _ => .error "cannot call integer"
    | [] => .fault
  | .ADD => binCase pc stack (fun lhs rhs => wrap64 (rhs + lhs))
  | .SUB => binCase pc stack (fun lhs rhs => wrap64 (lhs - rhs))
  | .MUL => binCase pc stack (fun lhs rhs => wrap64 (lhs * rhs))
  | .DIV => binCase pc stack (fun lhs rhs => wrap64 (Int.tdiv lhs rhs))
  | .MOD => binCase pc stack (fun lhs rhs => wrap64 (Int.tmod lhs rhs))
  | .DEQ => binCase pc stack (fun lhs rhs => if lhs = rhs then 1 else 0)
  | .NEQ => binCase pc stack (fun lhs rhs => if lhs ≠ rhs then 1 else 0)
  | .SM => binCase pc stack (fun lhs rhs => if lhs < rhs then 1 else 0)
  | .SMEQ => binCase pc stack (fun lhs rhs => if lhs ≤ rhs then 1 else 0)
  | .GR => binCase pc stack (fun lhs rhs => if lhs > rhs then 1 else 0)
  | .GREQ => binCase pc stack (fun lhs rhs => if lhs ≥ rhs then 1 else 0)
  | .RET =>
    match prog pc, prog (pc + 1) with
    | some (.word depth), some (.word nargs) =>
      match stack with
      | v :: rest =>
        if depth ≤ rest.length then
          match rest.drop depth with
          | .addr r :: t =>
            if nargs ≤ t.length then .ok ⟨r, v :: t.drop nargs⟩ else .fault
          | _ :: _ => .error "return address is not an address"
          | [] => .fault
        else .fault
      | [] => .fault
    | _, _ => .fault
  | .JUMP_FALSE =>
    match stack with
    | cond :: rest =>
      match prog pc with
      | some (.word a) =>
        if isFalsy cond then .ok ⟨a, rest⟩ else .ok ⟨pc + 1, rest⟩
      | _ => .fault
    | [] => .fault
  | .JUMP =>
    match prog pc with
    | some (.word a) => .ok ⟨a, stack⟩
    | _ => .fault
  | .STOP => .stopped ⟨pc, stack⟩

/-- One fetch-decode-execute step of `Interp::Run`: fetch the opcode at the
program counter, advance past it, and run the matching case. -/
def step (prog : Program) (s : Interp) : StepRes :=
  match prog s.pc with
  | some (.op o) => exec o prog (s.pc + 1) s.stack
  | _ => .fault

/-- The eleven binary-operator opcodes (arithmetic and comparison). -/
def isBinOp : Opcode → Bool
  | .ADD | .SUB | .MUL | .DIV | .MOD
  | .DEQ | .NEQ | .SM | .SMEQ | .GR | .GREQ => true
  | _ => false

/-- A program holding a single opcode at offset 0, used to evaluate single
instructions on concrete inputs. -/
def oneOp (o : Opcode) : Program :=
  fun n => if n = 0 then some (.op o) else none

/-- The value a binary-operator opcode pushes, as a function of the
second-popped (`lhs`) and first-popped (`rhs`) operands; `0` for opcodes that
are not binary operators. -/
def binEval : Opcode → Int → Int → Int
  | .ADD, lhs, rhs => wrap64 (rhs + lhs)
  | .SUB, lhs, rhs => wrap64 (lhs - rhs)
  | .MUL, lhs, rhs => wrap64 (lhs * rhs)
  | .DIV, lhs, rhs => wrap64 (Int.tdiv lhs rhs)
  | .MOD, lhs, rhs => wrap64 (Int.tmod lhs rhs)
  | .DEQ, lhs, rhs => if lhs = rhs then 1 else 0
  | .NEQ, lhs, rhs => if lhs ≠ rhs then 1 else 0
  | .SM, lhs, rhs => if lhs < rhs then 1 else 0
  | .SMEQ, lhs, rhs => if lhs ≤ rhs then 1 else 0
  | .GR, lhs, rhs => if lhs > rhs then 1 else 0
  | .GREQ, lhs, rhs => if lhs ≥ rhs then 1 else 0
  | _, _, _ => 0

/-! ## Tokens and AST (token kinds from `Token::Kind` in src/lexer.h; the AST
node shapes, declared in the non-visible `ast.h`, are modelled from the
spec's data model) -/

/-- The token kinds of `Token::Kind`. -/
inductive TokKind where
  | FUNC | RETURN | WHILE | IF | ELSE
  | LPAREN | RPAREN | LBRACE | RBRACE | COLON | SEMI | EQUAL | COMMA
  | PLUS | MINUS | MULTIPLY | DIVIDE | MODULO
  | DOUBLE_EQUAL | NOT_EQUAL | GREATER | GREATER_OR_EQUAL
  | SMALLER | SMALLER_OR_EQUAL
  | INT | STRING | IDENT | END
  deriving DecidableEq

/-- A token: a kind together with the payload valid for that kind
(`INT` carries an unsigned 64-bit value, `STRING`/`IDENT` carry text). -/
inductive Tok where
  | FUNC | RETURN | WHILE | IF | ELSE
  | LPAREN | RPAREN | LBRACE | RBRACE | COLON | SEMI | EQUAL | COMMA
  | PLUS | MINUS | MULTIPLY | DIVIDE | MODULO
  | DOUBLE_EQUAL | NOT_EQUAL | GREATER | GREATER_OR_EQUAL
  | SMALLER | SMALLER_OR_EQUAL
  | INT (value : Nat) | STRING (text : String) | IDENT (text : String)
  | END
  deriving DecidableEq

/-- The kind of a token (`Token::GetKind`). -/
def Tok.kind : Tok → TokKind
  | .FUNC => .FUNC | .RETURN => .RETURN | .WHILE => .WHILE
  | .IF => .IF | .ELSE => .ELSE
  | .LPAREN => .LPAREN | .RPAREN => .RPAREN
  | .LBRACE => .LBRACE | .RBRACE => .RBRACE
  | .COLON => .COLON | .SEMI => .SEMI | .EQUAL => .EQUAL | .COMMA => .COMMA
  | .PLUS => .PLUS | .MINUS => .MINUS | .MULTIPLY => .MULTIPLY
  | .DIVIDE => .DIVIDE | .MODULO => .MODULO
  | .DOUBLE_EQUAL => .DOUBLE_EQUAL | .NOT_EQUAL => .NOT_EQUAL
  | .GREATER => .GREATER | .GREATER_OR_EQUAL => .GREATER_OR_EQUAL
  | .SMALLER => .SMALLER | .SMALLER_OR_EQUAL => .SMALLER_OR_EQUAL
  | .INT _ => .INT | .STRING _ => .STRING | .IDENT _ => .IDENT
  | .END => .END

/-- The parser's one-token lookahead over the remaining token stream
(`Parser::Current`); at the end of the stream the lexer yields the `END`
token, so the current token of an exhausted stream is `END`. -/
def curTok : List Tok → Tok
  | [] => .END
  | t :: _ => t

/-- Advance the token stream past the current token (`Lexer::Next`);
advancing an exhausted stream stays at `END`. -/
def adv : List Tok → List Tok
  | [] => []
  | _ :: ts => ts

/-- The binary-operator kinds of `BinaryExpr::Kind`. -/
inductive BinKind where
  | ADD | SUB | MUL | DIV | MOD
  | DEQ | NEQ | SM | SMEQ | GR | GREQ
  deriving DecidableEq

/-- Modelled from the spec: the expression nodes of the AST (`ast.h` is not in
the visible source): `RefExpr(name)`, `IntExpr(value)`,
`CallExpr(callee, args)`, `BinaryExpr(opKind, lhs, rhs)`. -/
inductive Expr where
  | ref (name : String)
  | int (value : Nat)
  | call (callee : Expr) (args : List Expr)
  | binary (k : BinKind) (lhs rhs : Expr)

/-- Modelled from the spec: the statement nodes of the AST: `ExprStmt`,
`ReturnStmt(expr)`, `WhileStmt(cond, body)`, `IfStmt(cond, then, optional
else)`, `BlockStmt(ordered stmts)`. -/
inductive Stmt where
  | exprStmt (e : Expr)
  | returnStmt (e : Expr)
  | whileStmt (cond : Expr) (body : Stmt)
  | ifStmt (cond : Expr) (thenStmt : Stmt) (elseStmt : Option Stmt)
  | blockStmt (body : List Stmt)

/-- Modelled from the spec: a top-level item of a `Module` — a bare statement,
a `FuncDecl` (name, (argName, argType) pairs, return type, body block), or
a `ProtoDecl` (same signature plus a bound native-primitive name). -/
inductive TopStmt where
  | stmt (s : Stmt)
  | funcDecl (name : String) (args : List (String × String))
      (retType : String) (body : Stmt)
  | protoDecl (name : String) (args : List (String × String))
      (retType : String) (primitive : String)

/-- A parse failure: `unexpected` mirrors `Parser::Check`'s
"unexpected X, expecting Y" error, `expectedTerm` mirrors the default case of
`Parser::ParseTermExpr` ("unexpected X, expecting term"), `usageFault` models
reading the wrong payload of a token (an assertion in the source), and
`fuelOut` marks recursion-bound exhaustion of this embedding (never reached on
the inputs considered below). -/
inductive ParseErr where
  | unexpected (found : Tok) (expected : TokKind)
  | expectedTerm (found : Tok)
  | usageFault
  | fuelOut
  deriving DecidableEq

/-- `Parser::Check`: require the current token to be of the given kind and
return it, without advancing; otherwise fail with "unexpected X,
expecting Y". -/
def checkTok (k : TokKind) (ts : List Tok) : Except ParseErr Tok :=
  if (curTok ts).kind = k then .ok (curTok ts)
  else .error (.unexpected (curTok ts) k)

/-- `Parser::Expect`: advance, then `Check` the new current token. -/
def expectTok (k : TokKind) (ts : List Tok) : Except ParseErr (Tok × List Tok) := do
  let ts := adv ts
  let t ← checkTok k ts
  return (t, ts)

/-- Modelled from the spec: `Token::GetIdent` — reading the identifier payload
of a non-`IDENT` token is a usage error (an assertion in the source). -/
def getIdent (t : Tok) : Except ParseErr String :=
  match t with
  | .IDENT s => .ok s
  | _ => .error .usageFault

/-- Modelled from the spec: `Token::GetString` — reading the string payload of
a non-`STRING` token is a usage error (an assertion in the source). -/
def getString (t : Tok) : Except ParseErr String :=
  match t with
  | .STRING s => .ok s
  | _ => .error .usageFault

/-! ## The recursive-descent parser (parser part of src/lexer.h)

Each function carries the token stream positioned so that its head is the
parser's current lookahead token, and returns the stream positioned exactly
one token past what it consumed, as every production of the source does.
A fuel parameter bounds the recursion depth of this embedding; every
recursive call strictly decreases it. -/

mutual

/-- Modelled from the spec: `Parser::ParseExpr` is declared and called but its
body is not in the visible source; per the spec's grammar the topmost
expression level is the comparison level, so it delegates to
`ParseCompExpr`. -/
def parseExprF : Nat → List Tok → Except ParseErr (Expr × List Tok)
  | 0, _ => .error .fuelOut
  | fuel + 1, ts => parseCompExprF fuel ts

/-- `Parser::ParseCompExpr`: an additive term, then left-associative
combination with the six comparison operators. -/
def parseCompExprF : Nat → List Tok → Except ParseErr (Expr × List Tok)
  | 0, _ => .error .fuelOut
  | fuel + 1, ts => do
    let (term, ts) ← parseAddSubExprF fuel ts
    compLoopF fuel term ts

/-- The `while` loop of `Parser::ParseCompExpr`, with the source's nested
conditional selecting the `BinaryExpr` kind. -/
def compLoopF : Nat → Expr → List Tok → Except ParseErr (Expr × List Tok)
  | 0, _, _ => .error .fuelOut
  | fuel + 1, term, ts =>
    let k := (curTok ts).kind
    if k = .DOUBLE_EQUAL ∨ k = .NOT_EQUAL ∨ k = .SMALLER ∨
        k = .SMALLER_OR_EQUAL ∨ k = .GREATER ∨ k = .GREATER_OR_EQUAL then do
      let (rhs, ts) ← parseAddSubExprF fuel (adv ts)
      compLoopF fuel
        (.binary
          (if k = .DOUBLE_EQUAL then .DEQ
           else if k = .NOT_EQUAL then .NEQ
           else if k = .SMALLER then .SM
           else if k = .SMALLER_OR_EQUAL then .SMEQ
           else if k = .GREATER then .GR
           else .GREQ) term rhs) ts
    else .ok (term, ts)

/-- `Parser::ParseAddSubExpr`: a multiplicative term, then left-associative
combination with `+`/`-`. -/
def parseAddSubExprF : Nat → List Tok → Except ParseErr (Expr × List Tok)
  | 0, _ => .error .fuelOut
  | fuel + 1, ts => do
    let (term, ts) ← parseMulDivExprF fuel ts
    addSubLoopF fuel term ts

/-- The `while` loop of `Parser::ParseAddSubExpr`. -/
def addSubLoopF : Nat → Expr → List Tok → Except ParseErr (Expr × List Tok)
  | 0, _, _ => .error .fuelOut
  | fuel + 1, term, ts =>
    let k := (curTok ts).kind
    if k = .PLUS ∨ k = .MINUS then do
      let (rhs, ts) ← parseMulDivExprF fuel (adv ts)
      addSubLoopF fuel
        (.binary (if k = .PLUS then .ADD else .SUB) term rhs) ts
    else .ok (term, ts)

/-- `Parser::ParseMulDivExpr`: a call-level term, then left-associative
combination with `*`/`/`/`%`. -/
def parseMulDivExprF : Nat → List Tok → Except ParseErr (Expr × List Tok)
  | 0, _ => .error .fuelOut
  | fuel + 1, ts => do
    let (term, ts) ← parseCallExprF fuel ts
    mulDivLoopF fuel term ts

/-- The `while` loop of `Parser::ParseMulDivExpr`, with the source's nested
conditional selecting the `BinaryExpr` kind. -/
def mulDivLoopF : Nat → Expr → List Tok → Except ParseErr (Expr × List Tok)
  | 0, _, _ => .error .fuelOut
  | fuel + 1, term, ts =>
    let k := (curTok ts).kind
    if k = .MULTIPLY ∨ k = .DIVIDE ∨ k = .MODULO then do
      let (rhs, ts) ← parseCallExprF fuel (adv ts)
      mulDivLoopF fuel
        (.binary
          (if k = .MULTIPLY then .MUL
           else if k = .DIVIDE then .DIV
           else .MOD) term rhs) ts
    else .ok (term, ts)

/-- `Parser::ParseCallExpr`: a term, then zero or more chained parenthesized
argument lists, combined left-associatively into `CallExpr` nodes. -/
def parseCallExprF : Nat → List Tok → Except ParseErr (Expr × List Tok)
  | 0, _ => .error .fuelOut
  | fuel + 1, ts => do
    let (callee, ts) ← parseTermExprF fuel ts
    callLoopF fuel callee ts

/-- The outer `while (Current().Is(LPAREN))` loop of `Parser::ParseCallExpr`:
parse one argument list, require and consume the closing parenthesis, wrap
the callee in a `CallExpr`, and continue. -/
def callLoopF : Nat → Expr → List Tok → Except ParseErr (Expr × List Tok)
  | 0, _, _ => .error .fuelOut
  | fuel + 1, callee, ts =>
    if (curTok ts).kind = .LPAREN then do
      let (args, ts) ← callArgsF fuel ts
      let _ ← checkTok .RPAREN ts
      callLoopF fuel (.call callee args) (adv ts)
    else .ok (callee, ts)

/-- The inner `while (!lexer_.Next().Is(RPAREN))` loop of
`Parser::ParseCallExpr`: advance (past the opening parenthesis, or past the
comma); stop if the new current token is the closing parenthesis; otherwise
parse one argument, and continue only when a comma follows it. -/
def callArgsF : Nat → List Tok → Except ParseErr (List Expr × List Tok)
  | 0, _ => .error .fuelOut
  | fuel + 1, ts =>
    let ts := adv ts
    if (curTok ts).kind = .RPAREN then .ok ([], ts)
    else do
      let (e, ts) ← parseExprF fuel ts
      if (curTok ts).kind = .COMMA then do
        let (rest, ts) ← callArgsF fuel ts
        return (e :: rest, ts)
      else .ok ([e], ts)

/-- `Parser::ParseTermExpr`: an identifier reference, an integer literal, or a
parenthesized expression; anything else is "unexpected X, expecting term". -/
def parseTermExprF : Nat → List Tok → Except ParseErr (Expr × List Tok)
  | 0, _ => .error .fuelOut
  | fuel + 1, ts =>
    match curTok ts with
    | .IDENT s => .ok (.ref s, adv ts)
    | .INT n => .ok (.int n, adv ts)
    | .LPAREN => do
      let (e, ts) ← parseExprF fuel (adv ts)
      let _ ← checkTok .RPAREN ts
      .ok (e, adv ts)
    | t => .error (.expectedTerm t)

/-- `Parser::ParseStmt`: dispatch on the current token's kind to the
statement productions, defaulting to an expression statement. -/
def parseStmtF : Nat → List Tok → Except ParseErr (Stmt × List Tok)
  | 0, _ => .error .fuelOut
  | fuel + 1, ts =>
    match (curTok ts).kind with
    | .RETURN => parseReturnStmtF fuel ts
    | .WHILE => parseWhileStmtF fuel ts
    | .LBRACE => parseBlockStmtF fuel ts
    | .IF => parseIfStmtF fuel ts
    | _ => do
      let (e, ts) ← parseExprF fuel ts
      return (.exprStmt e, ts)

/-- `Parser::ParseBlockStmt`: require `LBRACE`, collect the body, then require
`RBRACE` as the current token and consume it. -/
def parseBlockStmtF : Nat → List Tok → Except ParseErr (Stmt × List Tok)
  | 0, _ => .error .fuelOut
  | fuel + 1, ts => do
    let _ ← checkTok .LBRACE ts
    let (body, ts) ← blockBodyF fuel ts
    let _ ← checkTok .RBRACE ts
    return (.blockStmt body, adv ts)

/-- The `while (!lexer_.Next().Is(RBRACE))` loop of `Parser::ParseBlockStmt`:
advance (past the opening brace, or past the semicolon); stop if the new
current token is the closing brace; otherwise parse one statement, and
continue only when the statement is immediately followed by a separator —
otherwise stop collecting at once. -/
def blockBodyF : Nat → List Tok → Except ParseErr (List Stmt × List Tok)
  | 0, _ => .error .fuelOut
  | fuel + 1, ts =>
    let ts := adv ts
    if (curTok ts).kind = .RBRACE then .ok ([], ts)
    else do
      let (s, ts) ← parseStmtF fuel ts
      if (curTok ts).kind = .SEMI then do
        let (rest, ts) ← blockBodyF fuel ts
        return (s :: rest, ts)
      else .ok ([s], ts)

/-- `Parser::ParseReturnStmt`: require `return`, advance, parse the returned
expression. -/
def parseReturnStmtF : Nat → List Tok → Except ParseErr (Stmt × List Tok)
  | 0, _ => .error .fuelOut
  | fuel + 1, ts => do
    let _ ← checkTok .RETURN ts
    let (e, ts) ← parseExprF fuel (adv ts)
    return (.returnStmt e, ts)

/-- `Parser::ParseWhileStmt`: `while`, parenthesized condition, body
statement. -/
def parseWhileStmtF : Nat → List Tok → Except ParseErr (Stmt × List Tok)
  | 0, _ => .error .fuelOut
  | fuel + 1, ts => do
    let _ ← checkTok .WHILE ts
    let _ ← expectTok .LPAREN ts
    let (cond, ts) ← parseExprF fuel (adv (adv ts))
    let _ ← checkTok .RPAREN ts
    let (body, ts) ← parseStmtF fuel (adv ts)
    return (.whileStmt cond body, ts)

/-- `Parser::ParseIfStmt`: `if`, parenthesized condition, then-statement, and
an optional `else` statement when the current token after the then-statement
is `else`. -/
def parseIfStmtF : Nat → List Tok → Except ParseErr (Stmt × List Tok)
  | 0, _ => .error .fuelOut
  | fuel + 1, ts => do
    let _ ← checkTok .IF ts
    let _ ← expectTok .LPAREN ts
    let (cond, ts) ← parseExprF fuel (adv (adv ts))
    let _ ← checkTok .RPAREN ts
    let (thenS, ts) ← parseStmtF fuel (adv ts)
    if (curTok ts).kind = .ELSE then do
      let (elseS, ts) ← parseStmtF fuel (adv ts)
      return (.ifStmt cond thenS (some elseS), ts)
    else return (.ifStmt cond thenS none, ts)

end

/-- The parameter-list loop of `Parser::ParseModule`
(`while (!lexer_.Next().Is(RPAREN))`): advance (past the opening parenthesis,
or past the comma); stop if the new current token is the closing parenthesis;
otherwise read one `name : type` pair (the name via `GetIdent` on the current
token, unchecked in the source), and continue only when, after advancing, a
comma is the current token. -/
def funcArgsF : Nat → List Tok → Except ParseErr (List (String × String) × List Tok)
  | 0, _ => .error .fuelOut
  | fuel + 1, ts =>
    let ts := adv ts
    if (curTok ts).kind = .RPAREN then .ok ([], ts)
    else do
      let arg ← getIdent (curTok ts)
      let _ ← expectTok .COLON ts
      let (tyTok, ts) ← expectTok .IDENT (adv ts)
      let ty ← getIdent tyTok
      let ts := adv ts
      if (curTok ts).kind = .COMMA then do
        let (rest, ts) ← funcArgsF fuel ts
        return ((arg, ty) :: rest, ts)
      else .ok ([(arg, ty)], ts)

/-- `Parser::ParseModule`: while the current token is not `END`, parse either
a `func` item — name, parameter list, `:` return type, then either
`= "primitive"` (a `ProtoDecl`) or a block (a `FuncDecl`) — or a bare
top-level statement; an `END` current token ends the module at once. -/
def parseModuleF : Nat → List Tok → Except ParseErr (List TopStmt × List Tok)
  | 0, _ => .error .fuelOut
  | fuel + 1, ts =>
    if (curTok ts).kind = .END then .ok ([], ts)
    else if (curTok ts).kind = .FUNC then do
      let (nameTok, ts) ← expectTok .IDENT ts
      let name ← getIdent nameTok
      let (_, ts) ← expectTok .LPAREN ts
      let (args, ts) ← funcArgsF fuel ts
      let _ ← checkTok .RPAREN ts
      let (_, ts) ← expectTok .COLON ts
      let (tyTok, ts) ← expectTok .IDENT ts
      let ty ← getIdent tyTok
      let ts := adv ts
      if (curTok ts).kind = .EQUAL then do
        let (strTok, ts) ← expectTok .STRING ts
        let prim ← getString strTok
        let ts := adv ts
        let (rest, ts) ← parseModuleF fuel ts
        return (.protoDecl name args ty prim :: rest, ts)
      else do
        let (block, ts) ← parseBlockStmtF fuel ts
        let (rest, ts) ← parseModuleF fuel ts
        return (.funcDecl name args ty block :: rest, ts)
    else do
      let (s, ts) ← parseStmtF fuel ts
      let (rest, ts) ← parseModuleF fuel ts
      return (.stmt s :: rest, ts)

/-! ## Helper lemmas -/

/-- Executing a binary-operator case on a stack whose top two values are
Integers pushes `f lhs rhs`, where `rhs` is the first-popped (top) and `lhs`
the second-popped value. -/
theorem binCase_int (pc : Nat) (l r : Int) (rest : List Value)
    (f : Int → Int → Int) :
    binCase pc (.int r :: .int l :: rest) f = .ok ⟨pc, .int (f l r) :: rest⟩ :=
  rfl

/-- The overflow test as a proposition about its three integer arguments. -/
theorem overflowTest_iff (rhs lhs result : Int) :
    overflowTest rhs lhs result = true ↔
      ((rhs < 0 ∧ lhs < 0 ∧ 0 < result) ∨ (0 < rhs ∧ 0 < lhs ∧ result < 0)) := by
  simp [overflowTest, and_assoc]

/-! ## Claims -/

/-- Claim C1: executing `RET` with immediates `depth = D` and `nargs = N` on a
stack holding (top to bottom) the return value, `D` intermediate values, an
`Address` return address, `N` argument values and arbitrary deeper content,
jumps to the return address and leaves the return value on top of the deeper
content: the stack height after the `RET` equals the height immediately
before it minus the `D + N` discarded values and the popped return address,
with the one retained return value placed back on top. -/
theorem c1_ret_stack_effect (prog : Program) (pc D N r : Nat) (v : Value)
    (dvals args rest : List Value)
    (hop : prog pc = some (.op .RET))
    (hD : prog (pc + 1) = some (.word D))
    (hN : prog (pc + 2) = some (.word N))
    (hdl : dvals.length = D)
    (hal : args.length = N) :
    step prog ⟨pc, v :: (dvals ++ Value.addr r :: (args ++ rest))⟩
      = .ok ⟨r, v :: rest⟩
    ∧ (v :: rest).length + (D + N + 1)
      = (v :: (dvals ++ Value.addr r :: (args ++ rest))).length := by
  have hN' : prog (pc + 1 + 1) = some (Cell.word N) := by
    rwa [show pc + 1 + 1 = pc + 2 from by omega]
  have hdrop1 : (dvals ++ Value.addr r :: (args ++ rest)).drop D
      = Value.addr r :: (args ++ rest) := List.drop_left' hdl
  have hdrop2 : (args ++ rest).drop N = rest := List.drop_left' hal
  have hle1 : D ≤ (dvals ++ Value.addr r :: (args ++ rest)).length := by
    simp [List.length_append]
    omega
  have hle2 : N ≤ (args ++ rest).length := by
    simp [List.length_append]
    omega
  have h1 : D ≤ dvals.length + (args.length + rest.length + 1) := by omega
  have h2 : N ≤ args.length + rest.length := by omega
  constructor
  · simp [step, hop, exec, hN', hD, hdrop1, hdrop2, h1, h2]
  · simp [List.length_append]
    omega

/-- Witness for C1: a concrete `RET(depth = 1, nargs = 1)` at offset 0, on the
stack `[7, 9, addr 5, 3, 0]` (top first), jumps to 5 and leaves `[7, 0]`. -/
theorem c1_ret_stack_effect_witness :
    step
      (fun n =>
        if n = 0 then some (.op .RET)
        else if n = 1 then some (.word 1)
        else if n = 2 then some (.word 1)
        else none)
      ⟨0, [.int 7, .int 9, .addr 5, .int 3, .int 0]⟩
      = .ok ⟨5, [.int 7, .int 0]⟩
    ∧ ([Value.int 7, Value.int 0]).length + (1 + 1 + 1)
      = ([Value.int 7, Value.int 9, Value.addr 5, Value.int 3, Value.int 0]).length :=
  c1_ret_stack_effect
    (fun n =>
      if n = 0 then some (.op .RET)
      else if n = 1 then some (.word 1)
      else if n = 2 then some (.word 1)
      else none)
    0 1 1 5 (.int 7) [.int 9] [.int 3] [.int 0] rfl rfl rfl rfl rfl

/-- Claim C2: `CALL` pops the callee; an `Integer` callee is the fatal runtime
error "cannot call integer", an `Address` callee pushes the current program
counter (pointing past the `CALL` opcode) as an `Address` return address and
then jumps to the callee's address, and a `NativeReference` callee transfers
control to the native callable rather than failing — so the `CALL` opcode
itself raises that error for no other callee kind. -/
theorem c2_call_dispatch (prog : Program) (pc : Nat) (rest : List Value)
    (hop : prog pc = some (.op .CALL)) :
    (∀ i : Int, step prog ⟨pc, .int i :: rest⟩ = .error "cannot call integer")
    ∧ (∀ a : Nat, step prog ⟨pc, .addr a :: rest⟩
        = .ok ⟨a, .addr (pc + 1) :: rest⟩)
    ∧ (∀ f : Nat, step prog ⟨pc, .proto f :: rest⟩ = .native f ⟨pc + 1, rest⟩) := by
  refine ⟨fun i => ?_, fun a => ?_, fun f => ?_⟩ <;> simp [step, hop, exec]

/-- Witness for C2: a concrete `CALL` at offset 0 on each callee kind. -/
theorem c2_call_dispatch_witness :
    step (oneOp .CALL) ⟨0, [.int 4, .int 11]⟩ = .error "cannot call integer"
    ∧ step (oneOp .CALL) ⟨0, [.addr 9, .int 11]⟩
        = .ok ⟨9, [.addr (0 + 1), .int 11]⟩
    ∧ step (oneOp .CALL) ⟨0, [.proto 2, .int 11]⟩ = .native 2 ⟨0 + 1, [.int 11]⟩ := by
  obtain ⟨h1, h2, h3⟩ := c2_call_dispatch (oneOp .CALL) 0 [.int 11] rfl
  exact ⟨h1 4, h2 9, h3 2⟩

/-- Claim C3: every binary-operator opcode pops the right-hand operand first,
then the left-hand operand, and pushes `lhs <op> rhs` computed from the
second-popped value `l` and the first-popped value `r`; in particular `SUB`
pushes `l - r` and `DIV` pushes `l / r` (truncated division), with 64-bit
wrapping reinterpretation. -/
theorem c3_binop_operand_order (pc : Nat) (l r : Int) (rest : List Value) :
    (∀ prog : Program, prog pc = some (.op .ADD) →
      step prog ⟨pc, .int r :: .int l :: rest⟩
        = .ok ⟨pc + 1, .int (wrap64 (l + r)) :: rest⟩)
    ∧ (∀ prog : Program, prog pc = some (.op .SUB) →
      step prog ⟨pc, .int r :: .int l :: rest⟩
        = .ok ⟨pc + 1, .int (wrap64 (l - r)) :: rest⟩)
    ∧ (∀ prog : Program, prog pc = some (.op .MUL) →
      step prog ⟨pc, .int r :: .int l :: rest⟩
        = .ok ⟨pc + 1, .int (wrap64 (l * r)) :: rest⟩)
    ∧ (∀ prog : Program, prog pc = some (.op .DIV) →
      step prog ⟨pc, .int r :: .int l :: rest⟩
        = .ok ⟨pc + 1, .int (wrap64 (Int.tdiv l r)) :: rest⟩)
    ∧ (∀ prog : Program, prog pc = some (.op .MOD) →
      step prog ⟨pc, .int r :: .int l :: rest⟩
        = .ok ⟨pc + 1, .int (wrap64 (Int.tmod l r)) :: rest⟩)
    ∧ (∀ prog : Program, prog pc = some (.op .DEQ) →
      step prog ⟨pc, .int r :: .int l :: rest⟩
        = .ok ⟨pc + 1, .int (if l = r then 1 else 0) :: rest⟩)
    ∧ (∀ prog : Program, prog pc = some (.op .NEQ) →
      step prog ⟨pc, .int r :: .int l :: rest⟩
        = .ok ⟨pc + 1, .int (if l ≠ r then 1 else 0) :: rest⟩)
    ∧ (∀ prog : Program, prog pc = some (.op .SM) →
      step prog ⟨pc, .int r :: .int l :: rest⟩
        = .ok ⟨pc + 1, .int (if l < r then 1 else 0) :: rest⟩)
    ∧ (∀ prog : Program, prog pc = some (.op .SMEQ) →
      step prog ⟨pc, .int r :: .int l :: rest⟩
        = .ok ⟨pc + 1, .int (if l ≤ r then 1 else 0) :: rest⟩)
    ∧ (∀ prog : Program, prog pc = some (.op .GR) →
      step prog ⟨pc, .int r :: .int l :: rest⟩
        = .ok ⟨pc + 1, .int (if l > r then 1 else 0) :: rest⟩)
    ∧ (∀ prog : Program, prog pc = some (.op .GREQ) →
      step prog ⟨pc, .int r :: .int l :: rest⟩
        = .ok ⟨pc + 1, .int (if l ≥ r then 1 else 0) :: rest⟩) := by
  refine ⟨fun prog h => ?_, fun prog h => ?_, fun prog h => ?_, fun prog h => ?_,
    fun prog h => ?_, fun prog h => ?_, fun prog h => ?_, fun prog h => ?_,
    fun prog h => ?_, fun prog h => ?_, fun prog h => ?_⟩ <;>
    simp [step, h, exec, binCase_int, Int.add_comm]

/-- Witness for C3: each of the eleven operators evaluated at offset 0 on the
stack with `3` on top of `8` (so `lhs = 8`, `rhs = 3`). -/
theorem c3_binop_operand_order_witness :
    step (oneOp .ADD) ⟨0, [.int 3, .int 8]⟩
      = .ok ⟨0 + 1, [.int (wrap64 (8 + 3))]⟩
    ∧ step (oneOp .SUB) ⟨0, [.int 3, .int 8]⟩
      = .ok ⟨0 + 1, [.int (wrap64 (8 - 3))]⟩
    ∧ step (oneOp .MUL) ⟨0, [.int 3, .int 8]⟩
      = .ok ⟨0 + 1, [.int (wrap64 (8 * 3))]⟩
    ∧ step (oneOp .DIV) ⟨0, [.int 3, .int 8]⟩
      = .ok ⟨0 + 1, [.int (wrap64 (Int.tdiv 8 3))]⟩
    ∧ step (oneOp .MOD) ⟨0, [.int 3, .int 8]⟩
      = .ok ⟨0 + 1, [.int (wrap64 (Int.tmod 8 3))]⟩
    ∧ step (oneOp .DEQ) ⟨0, [.int 3, .int 8]⟩
      = .ok ⟨0 + 1, [.int (if (8 : Int) = 3 then 1 else 0)]⟩
    ∧ step (oneOp .NEQ) ⟨0, [.int 3, .int 8]⟩
      = .ok ⟨0 + 1, [.int (if (8 : Int) ≠ 3 then 1 else 0)]⟩
    ∧ step (oneOp .SM) ⟨0, [.int 3, .int 8]⟩
      = .ok ⟨0 + 1, [.int (if (8 : Int) < 3 then 1 else 0)]⟩
    ∧ step (oneOp .SMEQ) ⟨0, [.int 3, .int 8]⟩
      = .ok ⟨0 + 1, [.int (if (8 : Int) ≤ 3 then 1 else 0)]⟩
    ∧ step (oneOp .GR) ⟨0, [.int 3, .int 8]⟩
      = .ok ⟨0 + 1, [.int (if (8 : Int) > 3 then 1 else 0)]⟩
    ∧ step (oneOp .GREQ) ⟨0, [.int 3, .int 8]⟩
      = .ok ⟨0 + 1, [.int (if (8 : Int) ≥ 3 then 1 else 0)]⟩ := by
  obtain ⟨h1, h2, h3, h4, h5, h6, h7, h8, h9, h10, h11⟩ :=
    c3_binop_operand_order 0 8 3 []
  exact ⟨h1 _ rfl, h2 _ rfl, h3 _ rfl, h4 _ rfl, h5 _ rfl, h6 _ rfl,
    h7 _ rfl, h8 _ rfl, h9 _ rfl, h10 _ rfl, h11 _ rfl⟩

/-- Claim C4 (refuted): the claim that the same-sign-operands /
opposite-sign-result test holds exactly when the mathematical `lhs + rhs`
(for `ADD`) or `lhs - rhs` (for `SUB`) lies outside the signed 64-bit range
fails on the code: for `SUB` with `lhs = 1`, `rhs = 2` the test fires although
`1 - 2 = -1` is representable, and for `ADD` with both operands
`-2^63` the mathematical sum lies outside the range yet the test does not
fire (the wrapped result is `0`, not positive). -/
theorem c4_overflow_claim_refuted :
    (overflowTest 2 1 (wrap64 (1 - 2)) = true ∧ inRange (1 - 2))
    ∧ (overflowTest (-9223372036854775808) (-9223372036854775808)
        (wrap64 ((-9223372036854775808) + (-9223372036854775808))) = false
      ∧ ¬ inRange ((-9223372036854775808) + (-9223372036854775808))) := by
  decide

/-- Claim C4 (amended): for `ADD`, the test evaluated on the two popped
in-range operands and the wrapped result holds exactly when the mathematical
`lhs + rhs` lies outside the signed 64-bit range, except that it misses the
single corner `lhs = rhs = -2^63`; for `SUB` the test is not an overflow
detector: whenever it fires, `lhs - rhs` is representable, and it fires
exactly when the operands share a strict sign and the difference has the
opposite sign; adding the maximum representable signed 64-bit value and `1`
does trigger the test. -/
theorem c4_overflow_test_characterization (lhs rhs : Int)
    (hl : inRange lhs) (hr : inRange rhs) :
    (overflowTest rhs lhs (wrap64 (rhs + lhs)) = true ↔
      (¬ inRange (lhs + rhs)
        ∧ ¬(lhs = -9223372036854775808 ∧ rhs = -9223372036854775808)))
    ∧ (overflowTest rhs lhs (wrap64 (lhs - rhs)) = true → inRange (lhs - rhs))
    ∧ (overflowTest rhs lhs (wrap64 (lhs - rhs)) = true ↔
        ((lhs < 0 ∧ rhs < 0 ∧ 0 < lhs - rhs)
          ∨ (0 < lhs ∧ 0 < rhs ∧ lhs - rhs < 0)))
    ∧ overflowTest 1 9223372036854775807
        (wrap64 (1 + 9223372036854775807)) = true := by
  obtain ⟨hl1, hl2⟩ := hl
  obtain ⟨hr1, hr2⟩ := hr
  refine ⟨?_, ?_, ?_, by decide⟩ <;>
    simp only [overflowTest_iff, wrap64, inRange] <;> omega

/-- Witness for the amended C4: the `ADD` characterization instantiated at the
in-range operands `lhs = 9223372036854775807`, `rhs = 1`, whose mathematical
sum overflows. -/
theorem c4_overflow_test_witness :
    overflowTest 1 9223372036854775807
        (wrap64 (1 + 9223372036854775807)) = true ↔
      (¬ inRange (9223372036854775807 + 1)
        ∧ ¬((9223372036854775807 : Int) = -9223372036854775808
            ∧ (1 : Int) = -9223372036854775808)) :=
  (c4_overflow_test_characterization 9223372036854775807 1
    (by decide) (by decide)).1

/-- Claim C5 (refuted): parsing the block `{ a; b c }` does not produce a
`BlockStmt` holding `[a, b]`: after `b` is not followed by a separator the
parser stops collecting and requires the closing brace as the current token,
so it fails with "unexpected identifier `c`, expecting `RBRACE`". -/
theorem c5_block_truncation_refuted :
    parseBlockStmtF 30
        [Tok.LBRACE, .IDENT "a", .SEMI, .IDENT "b", .IDENT "c", .RBRACE, .END]
      = .error (.unexpected (.IDENT "c") .RBRACE) :=
  rfl

/-- Claim C5 (amended): parsing `{ a; b c }` raises a `ParseError` at the
token `c` (unexpected token, expecting the closing brace) rather than
producing a block — the token `c` is indeed never consumed as part of the
block body, but the block parse fails instead of truncating; silent
truncation of the body succeeds exactly when the closing brace immediately
follows the statement that lacks a separator, as in `{ a; b }`, which parses
to the block `[a, b]`. -/
theorem c5_block_truncation_amended :
    parseBlockStmtF 30
        [Tok.LBRACE, .IDENT "a", .SEMI, .IDENT "b", .IDENT "c", .RBRACE, .END]
      = .error (.unexpected (.IDENT "c") .RBRACE)
    ∧ parseBlockStmtF 30 [Tok.LBRACE, .IDENT "a", .SEMI, .IDENT "b", .RBRACE, .END]
      = .ok (.blockStmt [.exprStmt (.ref "a"), .exprStmt (.ref "b")], [Tok.END]) :=
  ⟨rfl, rfl⟩

/-- Claim C6: the token stream `1 + 2 * 3` parses to
`ADD(IntExpr 1, MUL(IntExpr 2, IntExpr 3))`, which differs from
`MUL(ADD(1, 2), 3)`: the multiplicative level binds tighter than the additive
level; and each level combines left-associatively, as `1 - 2 + 3` parsing to
`ADD(SUB(1, 2), 3)` and `8 / 4 / 2` parsing to `DIV(DIV(8, 4), 2)` show. -/
theorem c6_precedence :
    parseExprF 30 [Tok.INT 1, .PLUS, .INT 2, .MULTIPLY, .INT 3, .END]
      = .ok (.binary .ADD (.int 1) (.binary .MUL (.int 2) (.int 3)), [Tok.END])
    ∧ Expr.binary .ADD (.int 1) (.binary .MUL (.int 2) (.int 3))
      ≠ Expr.binary .MUL (.binary .ADD (.int 1) (.int 2)) (.int 3)
    ∧ parseExprF 30 [Tok.INT 1, .MINUS, .INT 2, .PLUS, .INT 3, .END]
      = .ok (.binary .ADD (.binary .SUB (.int 1) (.int 2)) (.int 3), [Tok.END])
    ∧ parseExprF 30 [Tok.INT 8, .DIVIDE, .INT 4, .DIVIDE, .INT 2, .END]
      = .ok (.binary .DIV (.binary .DIV (.int 8) (.int 4)) (.int 2), [Tok.END]) := by
  refine ⟨rfl, ?_, rfl, rfl⟩
  intro h
  injection h with hk _ _
  exact BinKind.noConfusion hk

/-- Claim C7: `JUMP_FALSE(addr)` with an Integer condition on top of the stack
pops the condition and reads the address operand; the program counter becomes
`addr` if and only if the condition is `Integer(0)`, and otherwise becomes
the offset just past the address operand. -/
theorem c7_jump_false (prog : Program) (pc a : Nat) (c : Int)
    (rest : List Value)
    (hop : prog pc = some (.op .JUMP_FALSE))
    (ha : prog (pc + 1) = some (.word a)) :
    step prog ⟨pc, .int c :: rest⟩
      = .ok ⟨if c = 0 then a else pc + 2, rest⟩ := by
  by_cases hc : c = 0 <;>
    simp [step, hop, exec, ha, isFalsy, hc]

/-- Witness for C7: a concrete `JUMP_FALSE 9` at offset 0, taken on condition
`Integer(0)` and fallen through on condition `Integer(1)`. -/
theorem c7_jump_false_witness :
    step
      (fun n =>
        if n = 0 then some (.op .JUMP_FALSE)
        else if n = 1 then some (.word 9) else none)
      ⟨0, [.int 0, .int 5]⟩
      = .ok ⟨if (0 : Int) = 0 then 9 else 0 + 2, [.int 5]⟩
    ∧ step
      (fun n =>
        if n = 0 then some (.op .JUMP_FALSE)
        else if n = 1 then some (.word 9) else none)
      ⟨0, [.int 1, .int 5]⟩
      = .ok ⟨if (1 : Int) = 0 then 9 else 0 + 2, [.int 5]⟩ :=
  ⟨c7_jump_false
      (fun n =>
        if n = 0 then some (.op .JUMP_FALSE)
        else if n = 1 then some (.word 9) else none)
      0 9 0 [.int 5] rfl rfl,
    c7_jump_false
      (fun n =>
        if n = 0 then some (.op .JUMP_FALSE)
        else if n = 1 then some (.word 9) else none)
      0 9 1 [.int 5] rfl rfl⟩

/-- Claim C8: every binary-operator opcode, executed on a stack whose top two
values are Integers, replaces exactly those two operands by the one pushed
result: the new stack is one value shorter, and every slot below the top two
is unchanged. -/
theorem c8_binop_frame_effect (o : Opcode) (prog : Program) (pc : Nat)
    (l r : Int) (rest : List Value)
    (hbin : isBinOp o = true)
    (hop : prog pc = some (.op o)) :
    step prog ⟨pc, .int r :: .int l :: rest⟩
      = .ok ⟨pc + 1, .int (binEval o l r) :: rest⟩
    ∧ (Value.int (binEval o l r) :: rest).length + 1
      = (Value.int r :: Value.int l :: rest).length := by
  cases o <;> simp [isBinOp] at hbin <;>
    exact ⟨by simp [step, hop, exec, binCase_int, binEval], by simp⟩

/-- Witness for C8: the `ADD` opcode at offset 0 on the stack `[3, 8, 11]`. -/
theorem c8_binop_frame_effect_witness :
    step (oneOp .ADD) ⟨0, [.int 3, .int 8, .int 11]⟩
      = .ok ⟨0 + 1, .int (binEval .ADD 8 3) :: [.int 11]⟩
    ∧ (Value.int (binEval .ADD 8 3) :: [Value.int 11]).length + 1
      = (Value.int 3 :: Value.int 8 :: [Value.int 11]).length :=
  c8_binop_frame_effect .ADD (oneOp .ADD) 0 8 3 [.int 11] rfl rfl

/-- Claim C9: when the very first token is `END`, `ParseModule` returns a
module whose top-level body is empty, raising no error: an empty source is a
valid module. -/
theorem c9_empty_module (fuel : Nat) (rest : List Tok) :
    parseModuleF (fuel + 1) (Tok.END :: rest) = .ok ([], Tok.END :: rest) :=
  rfl

/-- Claim C10: a call argument list with a trailing comma immediately before
the closing parenthesis is accepted: `f(a,)` parses to
`CallExpr(RefExpr f, [RefExpr a])`, the same result as `f(a)`. -/
theorem c10_trailing_comma :
    parseCallExprF 30 [Tok.IDENT "f", .LPAREN, .IDENT "a", .COMMA, .RPAREN, .END]
      = .ok (.call (.ref "f") [.ref "a"], [Tok.END])
    ∧ parseCallExprF 30 [Tok.IDENT "f", .LPAREN, .IDENT "a", .RPAREN, .END]
      = .ok (.call (.ref "f") [.ref "a"], [Tok.END]) :=
  ⟨rfl, rfl⟩

end Imp
